import Mathlib

/-!
Shallow embedding of the ledger reconciliation core of the
contemporary-choir repository: the Entry / CostCode / GrandTotal / Ledger
data model of ledger-checker-classes.gs, the totals extractor
getCostCodeTotals and driver checkForNewTotals of ledger-checker.gs, and
the row differ compareLedgers / compareWithOld / isADate of
ledger-comparison.gs.  JavaScript numbers are modelled as exact rationals
together with NaN; sheet cells are modelled by their displayed string
values; side effects on the spreadsheet (colour highlighting) and the
Logger are modelled by explicit log lists where a claim needs them.
-/

set_option autoImplicit false

namespace ContemporaryChoir

/-- JavaScript number: either an exact rational value or NaN.  NaN is
produced by coercing non-numeric text with Number. -/
inductive JSNum where
  | num (q : ℚ)
  | nan
  deriving DecidableEq, Repr

namespace JSNum

/-- JavaScript strict equality on numbers: NaN is equal to nothing,
including itself. -/
def jsEq : JSNum → JSNum → Bool
  | num a, num b => a == b
  | _, _ => false

/-- Addition with NaN propagation. -/
def add : JSNum → JSNum → JSNum
  | num a, num b => num (a + b)
  | _, _ => nan

/-- Subtraction with NaN propagation. -/
def sub : JSNum → JSNum → JSNum
  | num a, num b => num (a - b)
  | _, _ => nan

/-- Unary minus with NaN propagation. -/
def neg : JSNum → JSNum
  | num a => num (-a)
  | nan => nan

end JSNum

/-- Prefix test on character lists. -/
def isPrefixList : List Char → List Char → Bool
  | [], _ => true
  | _ :: _, [] => false
  | p :: ps, c :: cs => p == c && isPrefixList ps cs

/-- Removal of the leftmost occurrence of the pattern from a character
list; none when the pattern does not occur. -/
def removeFirstList (pat : List Char) : List Char → Option (List Char)
  | [] => if pat.isEmpty then some [] else none
  | c :: cs =>
    if isPrefixList pat (c :: cs) then some ((c :: cs).drop pat.length)
    else
      match removeFirstList pat cs with
      | some rest => some (c :: rest)
      | none => none

/-- Replacement of the first occurrence of a pattern by the empty string,
as JavaScript String.prototype.replace does when given string
arguments. -/
def replaceFirst (s pat : String) : String :=
  match removeFirstList pat.data s.data with
  | some l => ⟨l⟩
  | none => s

/-- Substring containment on character lists. -/
def containsSubstrList (pat : List Char) : List Char → Bool
  | [] => pat.isEmpty
  | c :: cs => isPrefixList pat (c :: cs) || containsSubstrList pat cs

/-- Substring containment, as used by a TextFinder that does not match
entire cells. -/
def containsSubstr (s pat : String) : Bool :=
  containsSubstrList pat.data s.data

/-- Test for the pattern digit digit slash digit digit slash digit digit
digit digit at the head of a character list. -/
def dateShapeAt : List Char → Bool
  | d1 :: d2 :: '/' :: d3 :: d4 :: '/' :: y1 :: y2 :: y3 :: y4 :: _ =>
    d1.isDigit && d2.isDigit && d3.isDigit && d4.isDigit &&
      y1.isDigit && y2.isDigit && y3.isDigit && y4.isDigit
  | _ => false

/-- Test for the pattern anywhere in the character list. -/
def dateShapeSomewhere : List Char → Bool
  | [] => false
  | c :: rest => dateShapeAt (c :: rest) || dateShapeSomewhere rest

/-- The isADate test of ledger-comparison.gs: the value is matched
against the unanchored regular expression of two digits, a slash, two
digits, a slash and four digits, so the test holds whenever such a
substring occurs anywhere in the value; the digits are not validated as a
calendar date. -/
def isADate (s : String) : Bool :=
  dateShapeSomewhere s.data

/-- Value of an unsigned digit string. -/
def digitsToNat (l : List Char) : Nat :=
  l.foldl (fun n c => 10 * n + (c.toNat - 48)) 0

/-- Unsigned decimal literal, with an optional single decimal point and
at least one digit overall. -/
def parseDecimal (l : List Char) : Option ℚ :=
  match l.span (· ≠ '.') with
  | (ip, []) =>
    if !ip.isEmpty && ip.all Char.isDigit then some (digitsToNat ip : ℚ) else none
  | (ip, _ :: fp) =>
    if (!ip.isEmpty || !fp.isEmpty) && ip.all Char.isDigit && fp.all Char.isDigit then
      some ((digitsToNat ip : ℚ) + (digitsToNat fp : ℚ) / ((10 : ℚ) ^ fp.length))
    else none

/-- The JavaScript Number coercion applied to a cell value: empty or
all-whitespace text coerces to 0, simple signed decimal literals parse
exactly, and any other text gives NaN.  Exotic numeric forms (hex,
exponents, Infinity) do not occur in ledger sheets and are modelled as
NaN. -/
def jsNumber (s : String) : JSNum :=
  let t := s.trim
  if t = "" then .num 0
  else
    match t.data with
    | '+' :: rest =>
      match parseDecimal rest with
      | some q => .num q
      | none => .nan
    | '-' :: rest =>
      match parseDecimal rest with
      | some q => .num (-q)
      | none => .nan
    | l =>
      match parseDecimal l with
      | some q => .num q
      | none => .nan

/-- One sheet: an identifier and the grid of cell values in display form,
row major and 1-indexed through getCell. -/
structure SheetData where
  id : Nat
  rows : List (List String)
  deriving DecidableEq, Repr

namespace SheetData

/-- Value of the cell at a 1-based row and column; cells outside the
stored grid are empty, as getValue returns the empty string for blank
cells. -/
def getCell (s : SheetData) (r c : Nat) : String :=
  (((s.rows.drop (r - 1)).headD []).drop (c - 1)).headD ""

/-- Number of data rows, as getLastRow. -/
def lastRow (s : SheetData) : Nat := s.rows.length

/-- The first four cells of a row, padded with empty strings, as
getSheetValues over one row and four columns. -/
def row4 (s : SheetData) (r : Nat) : List String :=
  [s.getCell r 1, s.getCell r 2, s.getCell r 3, s.getCell r 4]

/-- The whole sheet restricted to its first four columns, as
getSheetValues from row 1 over lastRow rows. -/
def sheetValues4 (s : SheetData) : List (List String) :=
  (List.range' 1 s.lastRow).map s.row4

/-- Row-major 1-based positions of every cell containing the text, as a
TextFinder findAll that does not require matching the entire cell. -/
def findAll (s : SheetData) (text : String) : List (Nat × Nat) :=
  s.rows.enum.flatMap (fun ri =>
    ri.2.enum.filterMap (fun ci =>
      if containsSubstr ci.2 text then some (ri.1 + 1, ci.1 + 1) else none))

end SheetData

/-- The Entry class: one transaction line. -/
structure Entry where
  date : String
  description : String
  money : JSNum
  deriving DecidableEq, Repr

/-- The CostCode class: declared totals, the bounding row number, the
entries discovered under it and the running change in balance. -/
structure CostCode where
  moneyIn : JSNum
  moneyOut : JSNum
  balance : JSNum
  lastRowNumber : Nat
  entries : List Entry
  changeInBalance : JSNum
  deriving DecidableEq, Repr

namespace CostCode

/-- The CostCode constructor: entries start empty and the change in
balance starts at 0.  The balance check in the constructor only logs (the
throw is commented out in the source), so construction always
succeeds. -/
def make (moneyIn moneyOut balance : JSNum) (lastRowNumber : Nat) : CostCode :=
  { moneyIn, moneyOut, balance, lastRowNumber, entries := [],
    changeInBalance := .num 0 }

/-- addEntry: push the entry and increment the change in balance by its
money. -/
def addEntry (cc : CostCode) (e : Entry) : CostCode :=
  { cc with entries := cc.entries ++ [e],
            changeInBalance := cc.changeInBalance.add e.money }

end CostCode

/-- The GrandTotal class. -/
structure GrandTotal where
  totalIn : JSNum
  totalOut : JSNum
  balanceBroughtForward : JSNum
  totalBalance : JSNum
  lastRowNumber : Nat
  deriving DecidableEq, Repr

namespace GrandTotal

/-- The GrandTotal constructor.  Its invariant check only logs (the throw
is commented out in the source), so construction always succeeds. -/
def make (totalIn totalOut balanceBroughtForward totalBalance : JSNum)
    (lastRowNumber : Nat) : GrandTotal :=
  { totalIn, totalOut, balanceBroughtForward, totalBalance, lastRowNumber }

/-- Whether the constructor logged an invariant violation: the Logger
call fires exactly when totalBalance is not strictly equal to
balanceBroughtForward + totalIn - totalOut.  An instance is error-flagged
when this holds. -/
def constructorLogged (g : GrandTotal) : Bool :=
  !(g.totalBalance.jsEq ((g.balanceBroughtForward.add g.totalIn).sub g.totalOut))

end GrandTotal

/-- The Ledger class.  The string-keyed object of cost codes is modelled
as an insertion-ordered association list. -/
structure Ledger where
  sheetId : Nat
  costCodes : List (String × CostCode)
  grandTotal : Option GrandTotal
  societyName : Option String
  oldLedgerTimestamp : Option String
  deriving DecidableEq, Repr

namespace Ledger

/-- The Ledger constructor. -/
def new (sheetId : Nat) : Ledger :=
  { sheetId, costCodes := [], grandTotal := none, societyName := none,
    oldLedgerTimestamp := none }

/-- Property assignment on a string-keyed JavaScript object: an existing
key keeps its position and gets its value overwritten, a fresh key is
appended at the end. -/
def upsert : List (String × CostCode) → String → CostCode → List (String × CostCode)
  | [], k, v => [(k, v)]
  | (k0, v0) :: rest, k, v =>
    if k0 = k then (k0, v) :: rest else (k0, v0) :: upsert rest k v

/-- In-place update of the named cost code by addEntry. -/
def updateCostCode : List (String × CostCode) → String → Entry → List (String × CostCode)
  | [], _, _ => []
  | (k0, v0) :: rest, k, e =>
    if k0 = k then (k0, v0.addEntry e) :: rest else (k0, v0) :: updateCostCode rest k e

/-- calculateMoney: the single signed amount from the moneyIn / moneyOut
pair.  The source only tests whether moneyIn coerces to 0 and otherwise
returns moneyIn unchanged. -/
def calculateMoney (moneyIn moneyOut : JSNum) : JSNum :=
  if moneyIn.jsEq (.num 0) then moneyOut.neg else moneyIn

/-- addCostCode: construct the cost code and assign it under its name. -/
def addCostCode (l : Ledger) (name : String) (moneyIn moneyOut balance : JSNum)
    (lastRowNumber : Nat) : Ledger :=
  let cc := CostCode.make moneyIn moneyOut balance lastRowNumber
  { l with costCodes := upsert l.costCodes name cc }

/-- addEntry on the ledger: compute the money, then add the entry to the
named cost code, throwing when that cost code does not exist. -/
def addEntry (l : Ledger) (costCodeName date description : String)
    (moneyIn moneyOut : JSNum) : Except String Ledger :=
  let money := calculateMoney moneyIn moneyOut
  if (l.costCodes.lookup costCodeName).isSome then
    .ok { l with costCodes := updateCostCode l.costCodes costCodeName ⟨date, description, money⟩ }
  else
    .error ("The cost code " ++ costCodeName ++ " does not exist.")

/-- The static compareLedgers of the Ledger class: true when the two
grand totals strictly agree on totalIn, totalOut and
balanceBroughtForward.  Reading the fields of an unset grand total throws
in JavaScript, modelled as an error value. -/
def compareLedgers (a b : Ledger) : Except String Bool :=
  match a.grandTotal, b.grandTotal with
  | some ga, some gb =>
    .ok (ga.totalIn.jsEq gb.totalIn && ga.totalOut.jsEq gb.totalOut &&
      ga.balanceBroughtForward.jsEq gb.balanceBroughtForward)
  | _, _ => .error "TypeError: the grand total is not set"

/-- setGrandTotal. -/
def setGrandTotal (l : Ledger) (totalIn totalOut balanceBroughtForward totalBalance : JSNum)
    (lastRowNumber : Nat) : Ledger :=
  let g := GrandTotal.make totalIn totalOut balanceBroughtForward totalBalance lastRowNumber
  { l with grandTotal := some g }

/-- setSocietyName. -/
def setSocietyName (l : Ledger) (name : String) : Ledger :=
  { l with societyName := some name }

/-- setOldLedgerTimestamp. -/
def setOldLedgerTimestamp (l : Ledger) (timestamp : String) : Ledger :=
  { l with oldLedgerTimestamp := some timestamp }

/-- getCostCodeRows: each cost code with its last row number, in
insertion order. -/
def getCostCodeRows (l : Ledger) : List (String × Nat) :=
  l.costCodes.map (fun p => (p.1, p.2.lastRowNumber))

end Ledger

/-- Name of the cost code read from a found marker cell: the cell text
with the first occurrence of the marker replaced by the empty string. -/
def ccName (s : SheetData) (p : Nat × Nat) : String :=
  replaceFirst (s.getCell p.1 p.2) "Totals for "

/-- Body of the cost code extraction loop of getCostCodeTotals, one
marker match at a time: addCostCode with the stripped name, moneyIn one
column right, moneyOut two columns right, balance one row below and two
columns right, and the row of the match as lastRowNumber. -/
def addCostCodeFromMarker (sheet : SheetData) (l : Ledger) (p : Nat × Nat) : Ledger :=
  l.addCostCode (ccName sheet p)
    (jsNumber (sheet.getCell p.1 (p.2 + 1)))
    (jsNumber (sheet.getCell p.1 (p.2 + 2)))
    (jsNumber (sheet.getCell (p.1 + 1) (p.2 + 2)))
    p.1

/-- getCostCodeTotals from ledger-checker.gs: one cost code per marker
match except the last, reading moneyIn one column right of the match,
moneyOut two columns right, balance one row below and two columns right;
the final match gives the grand total with the same column offsets for
the totals, balance brought forward two rows below and two columns right,
and the total balance three rows below and two columns right.  The
society name is read from cell A2.  The final log call is dropped.  With
no marker at all the source indexes one before the start of the match
array and dereferences undefined, a fatal TypeError, modelled as an error
value. -/
def getCostCodeTotals (sheet : SheetData) (ledger : Ledger) : Except String Ledger :=
  let found := sheet.findAll "Totals for "
  match found.getLast? with
  | none => .error "TypeError: no marker cell was found"
  | some lastP =>
    let l1 := found.dropLast.foldl (addCostCodeFromMarker sheet) ledger
    let l2 := l1.setGrandTotal
      (jsNumber (sheet.getCell lastP.1 (lastP.2 + 1)))
      (jsNumber (sheet.getCell lastP.1 (lastP.2 + 2)))
      (jsNumber (sheet.getCell (lastP.1 + 2) (lastP.2 + 2)))
      (jsNumber (sheet.getCell (lastP.1 + 3) (lastP.2 + 2)))
      lastP.1
    .ok (l2.setSocietyName (sheet.getCell 2 1))

/-- Comma join of a row of cell values, which is what the JavaScript
Array toString of a row of strings produces. -/
def joinRow : List String → String
  | [] => ""
  | [x] => x
  | x :: y :: rest => x ++ "," ++ joinRow (y :: rest)

/-- compareWithOld from ledger-comparison.gs: the row is new when no row
of the old values has the same Array toString, that is the same
comma-joined cell strings; the loop over the old values is an unordered
membership test. -/
def compareWithOld (row : Nat) (oldSheetValues : List (List String))
    (newSheet : SheetData) : Bool :=
  !(oldSheetValues.any (fun old => joinRow (newSheet.row4 row) == joinRow old))

/-- Log line emitted for every row found to be new. -/
def newRowLog (row : Nat) : String :=
  "Row " ++ toString row ++ " is a new row!"

/-- The cost code walk of compareLedgers: the first cost code, in
insertion order, whose lastRowNumber strictly exceeds the row index; the
source breaks out of the loop at the first hit. -/
def findCostCode : List (String × Nat) → Nat → Option String
  | [], _ => none
  | (name, lrn) :: rest, row => if row < lrn then some name else findCostCode rest row

/-- State threaded through the row loop of the differ: the header flag,
the optional ledger being populated, the log lines emitted by the loop,
and an instrumentation counter of how many rows were compared against the
old sheet. -/
structure DiffState where
  passedHeader : Bool
  ledger : Option Ledger
  logs : List String
  work : Nat
  deriving DecidableEq, Repr

/-- One iteration of the row loop of the differ compareLedgers.  Rows up
to and including the header row (first cell equal to Date) only toggle
the header flag.  After the header, the row is compared against the old
values; a new row is logged, and when a ledger is present and the first
cell passes isADate, the row is added as an entry to the first cost code
whose lastRowNumber exceeds the row index (no cost code matching is a
silent skip).  Background colouring is an external side effect on the
sheet and is not modelled. -/
def diffStep (newSheet : SheetData) (oldSheetValues : List (List String))
    (costCodeRows : List (String × Nat)) (st : DiffState) (row : Nat) :
    Except String DiffState :=
  let cellValue := newSheet.getCell row 1
  if st.passedHeader = false then
    if cellValue = "Date" then .ok { st with passedHeader := true } else .ok st
  else
    let isNew := compareWithOld row oldSheetValues newSheet
    let st1 : DiffState := { st with work := st.work + 1 }
    if isNew then
      let st2 : DiffState := { st1 with logs := st1.logs ++ [newRowLog row] }
      match st2.ledger with
      | some l =>
        if isADate cellValue then
          match findCostCode costCodeRows row with
          | some name =>
            match l.addEntry name (newSheet.getCell row 1) (newSheet.getCell row 2)
                (jsNumber (newSheet.getCell row 3)) (jsNumber (newSheet.getCell row 4)) with
            | .ok l2 => .ok { st2 with ledger := some l2 }
            | .error e => .error e
          | none => .ok st2
        else .ok st2
      | none => .ok st2
    else .ok st1

/-- The row loop of the differ over a list of row indices. -/
def diffLoop (newSheet : SheetData) (oldSheetValues : List (List String))
    (costCodeRows : List (String × Nat)) :
    DiffState → List Nat → Except String DiffState
  | st, [] => .ok st
  | st, r :: rs =>
    match diffStep newSheet oldSheetValues costCodeRows st r with
    | .ok st2 => diffLoop newSheet oldSheetValues costCodeRows st2 rs
    | .error e => .error e

/-- The differ compareLedgers from ledger-comparison.gs: fetch the old
values once, compute the cost code rows of the supplied ledger up front,
then walk every row of the new sheet.  The two colour parameters only
drive the highlight sink and are not modelled.  The final state carries
the possibly updated ledger, the log lines of the loop followed by the
final log line, and the count of row-level comparisons. -/
def compareLedgers (newSheet oldSheet : SheetData) (newLedger : Option Ledger) :
    Except String DiffState :=
  let oldSheetValues := oldSheet.sheetValues4
  let costCodeRows := match newLedger with
    | some l => l.getCostCodeRows
    | none => []
  match diffLoop newSheet oldSheetValues costCodeRows
      ⟨false, newLedger, [], 0⟩ (List.range' 1 newSheet.lastRow) with
  | .ok st => .ok { st with logs := st.logs ++ ["Finished comparing sheets!"] }
  | .error e => .error e

/-- Guard of formatNeatlyWithSheet: when cell A1 already holds the
finished flag the source returns immediately, so formatting is the
identity.  The formatting pass on an unformatted sheet is a long sequence
of spreadsheet API mutations outside this model and is represented by
none; every theorem about checkForNewTotals therefore assumes an already
formatted sheet, on which the source provably does nothing. -/
def formatNeatlyWithSheet (s : SheetData) : Option SheetData :=
  if s.getCell 1 1 = "Income/Expense Statement" then some s else none

/-- Result of checkForNewTotals: noChanges corresponds to the literal
string False returned by the source (the ledger built so far is carried
for specification purposes only, the source discards it); changed carries
the ledger that the source serializes and returns. -/
inductive CheckResult where
  | noChanges (ledger : Ledger)
  | changed (ledger : Option Ledger)
  deriving DecidableEq, Repr

/-- checkForNewTotals from the-new-ledger/ledger-checker.gs.  The old
sheet, resolved by the source through the DefaultUrl named range and the
fixed sheet name Original, is passed directly.  The Nat component is the
number of row-level comparisons performed, which is 0 exactly when the
grand-total short circuit fires before any row work. -/
def checkForNewTotals (newSheet oldSheet : SheetData) :
    Except String (CheckResult × Nat) :=
  match formatNeatlyWithSheet newSheet with
  | none => .error "formatting of an unformatted sheet is not modelled"
  | some ns =>
    match getCostCodeTotals ns (Ledger.new ns.id) with
    | .error e => .error e
    | .ok ledger0 =>
      match getCostCodeTotals oldSheet (Ledger.new oldSheet.id) with
      | .error e => .error e
      | .ok oldLedger =>
        let ledger := ledger0.setOldLedgerTimestamp (oldSheet.getCell 3 1)
        match Ledger.compareLedgers ledger oldLedger with
        | .error e => .error e
        | .ok true => .ok (.noChanges ledger, 0)
        | .ok false =>
          match compareLedgers ns oldSheet (some ledger) with
          | .error e => .error e
          | .ok st => .ok (.changed st.ledger, st.work)

/-- Modelled from the claim wording of C4, for comparison with the
isADate of the source: the whole value is exactly two digits, a slash,
two digits, a slash and four digits. -/
def specExactDateShape (s : String) : Bool :=
  match s.data with
  | [d1, d2, '/', d3, d4, '/', y1, y2, y3, y4] =>
    d1.isDigit && d2.isDigit && d3.isDigit && d4.isDigit &&
      y1.isDigit && y2.isDigit && y3.isDigit && y4.isDigit
  | _ => false

/-- Sum of the money of a list of entries, starting from 0, used to state
the CostCode accumulator invariant. -/
def sumMoney (es : List Entry) : JSNum :=
  es.foldl (fun a e => a.add e.money) (.num 0)

/-! Helper lemmas shared by the claim theorems. -/

theorem JSNum.eq_of_jsEq {a b : JSNum} (h : a.jsEq b = true) : a = b := by
  cases a <;> cases b <;> simp_all [JSNum.jsEq]

theorem JSNum.jsEq_num_self (q : ℚ) : (JSNum.num q).jsEq (JSNum.num q) = true := by
  simp [JSNum.jsEq]

theorem foldl_addEntry_changeInBalance (es : List Entry) :
    ∀ cc : CostCode, (es.foldl CostCode.addEntry cc).changeInBalance =
      es.foldl (fun a e => a.add e.money) cc.changeInBalance := by
  induction es with
  | nil => intro cc; rfl
  | cons e es ih => intro cc; simp only [List.foldl_cons, ih]; rfl

theorem foldl_addEntry_entries (es : List Entry) :
    ∀ cc : CostCode, (es.foldl CostCode.addEntry cc).entries = cc.entries ++ es := by
  induction es with
  | nil => intro cc; simp
  | cons e es ih => intro cc; simp [List.foldl_cons, ih, CostCode.addEntry]

theorem lookup_updateCostCode {l : List (String × CostCode)} {k : String}
    {cc : CostCode} (e : Entry) (h : l.lookup k = some cc) :
    (Ledger.updateCostCode l k e).lookup k = some (cc.addEntry e) := by
  induction l with
  | nil => simp [List.lookup] at h
  | cons p rest ih =>
    obtain ⟨k0, v0⟩ := p
    by_cases hk : k0 = k
    · subst hk
      simp [List.lookup] at h
      simp [Ledger.updateCostCode, List.lookup, h]
    · have hbeq : (k == k0) = false := by
        simp [beq_iff_eq]; exact fun hh => hk hh.symm
      simp [List.lookup, hbeq] at h
      simp [Ledger.updateCostCode, hk, List.lookup, hbeq, ih h]

theorem findCostCode_eq_find (ccr : List (String × Nat)) (row : Nat) :
    findCostCode ccr row = (ccr.find? (fun p => decide (row < p.2))).map Prod.fst := by
  induction ccr with
  | nil => rfl
  | cons p rest ih =>
    obtain ⟨name, lrn⟩ := p
    by_cases h : row < lrn
    · simp [findCostCode, h, List.find?]
    · simp [findCostCode, h, List.find?, ih]

theorem findCostCode_none {ccr : List (String × Nat)} {row : Nat}
    (h : ∀ p ∈ ccr, p.2 ≤ row) : findCostCode ccr row = none := by
  induction ccr with
  | nil => rfl
  | cons p rest ih =>
    have hp : p.2 ≤ row := h p (List.mem_cons_self p rest)
    obtain ⟨name, lrn⟩ := p
    simp only [findCostCode, if_neg (Nat.not_lt.mpr hp)]
    exact ih fun q hq => h q (List.mem_cons_of_mem _ hq)

theorem upsert_fresh {l : List (String × CostCode)} {k : String} (v : CostCode)
    (h : ∀ q ∈ l, q.1 ≠ k) : Ledger.upsert l k v = l ++ [(k, v)] := by
  induction l with
  | nil => rfl
  | cons p rest ih =>
    have hp : p.1 ≠ k := h p (List.mem_cons_self p rest)
    obtain ⟨k0, v0⟩ := p
    simp only [Ledger.upsert, if_neg hp, List.cons_append, List.cons.injEq, true_and]
    exact ih fun q hq => h q (List.mem_cons_of_mem _ hq)

theorem mem_upsert {l : List (String × CostCode)} {k : String} {v : CostCode}
    {p : String × CostCode} (h : p ∈ Ledger.upsert l k v) : p ∈ l ∨ p = (k, v) := by
  induction l with
  | nil => simp [Ledger.upsert] at h; simp [h]
  | cons q rest ih =>
    obtain ⟨k0, v0⟩ := q
    by_cases hk : k0 = k
    · simp only [Ledger.upsert, if_pos hk] at h
      rcases List.mem_cons.mp h with h1 | h1
      · right; rw [h1, hk]
      · left; exact List.mem_cons_of_mem _ h1
    · simp only [Ledger.upsert, if_neg hk] at h
      rcases List.mem_cons.mp h with h1 | h1
      · left; rw [h1]; exact List.mem_cons_self _ _
      · rcases ih h1 with h2 | h2
        · left; exact List.mem_cons_of_mem _ h2
        · right; exact h2

/-- Cost code value read at a marker match, for stating what the
extraction loop produces. -/
def costCodeAtMarker (sheet : SheetData) (p : Nat × Nat) : CostCode :=
  CostCode.make
    (jsNumber (sheet.getCell p.1 (p.2 + 1)))
    (jsNumber (sheet.getCell p.1 (p.2 + 2)))
    (jsNumber (sheet.getCell (p.1 + 1) (p.2 + 2)))
    p.1

theorem foldl_addCostCodeFromMarker (s : SheetData) (fs : List (Nat × Nat)) :
    ∀ l : Ledger, (fs.map (ccName s)).Nodup →
      (∀ p ∈ fs, ∀ q ∈ l.costCodes, q.1 ≠ ccName s p) →
      (fs.foldl (addCostCodeFromMarker s) l).costCodes =
        l.costCodes ++ fs.map (fun p => (ccName s p, costCodeAtMarker s p)) := by
  induction fs with
  | nil => intro l _ _; simp
  | cons p fs ih =>
    intro l hnd hfresh
    have hfreshp : ∀ q ∈ l.costCodes, q.1 ≠ ccName s p :=
      hfresh p (List.mem_cons_self p fs)
    have hstep : (addCostCodeFromMarker s l p).costCodes =
        l.costCodes ++ [(ccName s p, costCodeAtMarker s p)] := by
      simp only [addCostCodeFromMarker, Ledger.addCostCode]
      exact upsert_fresh _ hfreshp
    have hnd2 : (fs.map (ccName s)).Nodup := (List.nodup_cons.mp hnd).2
    have hne : ccName s p ∉ fs.map (ccName s) := (List.nodup_cons.mp hnd).1
    have hfresh2 : ∀ r ∈ fs, ∀ q ∈ (addCostCodeFromMarker s l p).costCodes,
        q.1 ≠ ccName s r := by
      intro r hr q hq
      rw [hstep] at hq
      rcases List.mem_append.mp hq with h1 | h1
      · exact hfresh r (List.mem_cons_of_mem _ hr) q h1
      · have h2 : q = (ccName s p, costCodeAtMarker s p) := by simpa using h1
        subst h2
        intro hcontra
        have hc2 : ccName s p = ccName s r := hcontra
        exact hne (by rw [hc2]; exact List.mem_map_of_mem (ccName s) hr)
    calc ((p :: fs).foldl (addCostCodeFromMarker s) l).costCodes
        = (fs.foldl (addCostCodeFromMarker s) (addCostCodeFromMarker s l p)).costCodes := by
          simp
      _ = (addCostCodeFromMarker s l p).costCodes ++
            fs.map (fun r => (ccName s r, costCodeAtMarker s r)) := ih _ hnd2 hfresh2
      _ = l.costCodes ++ (p :: fs).map (fun r => (ccName s r, costCodeAtMarker s r)) := by
          rw [hstep]; simp

theorem foldl_addCostCodeFromMarker_entries (s : SheetData) (fs : List (Nat × Nat)) :
    ∀ l : Ledger, (∀ q ∈ l.costCodes, q.2.entries = []) →
      ∀ q ∈ (fs.foldl (addCostCodeFromMarker s) l).costCodes, q.2.entries = [] := by
  induction fs with
  | nil => intro l h; simpa using h
  | cons p fs ih =>
    intro l h
    have hstep : ∀ q ∈ (addCostCodeFromMarker s l p).costCodes, q.2.entries = [] := by
      intro q hq
      simp only [addCostCodeFromMarker, Ledger.addCostCode] at hq
      rcases mem_upsert hq with h1 | h1
      · exact h q h1
      · rw [h1]; rfl
    intro q hq
    exact ih (addCostCodeFromMarker s l p) hstep q (by simpa using hq)

theorem getCostCodeTotals_entries_empty {s : SheetData} {l0 lr : Ledger}
    (h0 : ∀ q ∈ l0.costCodes, q.2.entries = [])
    (h : getCostCodeTotals s l0 = .ok lr) :
    ∀ q ∈ lr.costCodes, q.2.entries = [] := by
  cases hlast : (s.findAll "Totals for ").getLast? with
  | none =>
    simp only [getCostCodeTotals, hlast] at h
    exact absurd h (by simp)
  | some lastP =>
    simp only [getCostCodeTotals, hlast, Except.ok.injEq] at h
    subst h
    intro q hq
    have hq2 : q ∈ (((s.findAll "Totals for ").dropLast).foldl
        (addCostCodeFromMarker s) l0).costCodes := by
      simpa [Ledger.setSocietyName, Ledger.setGrandTotal] using hq
    exact foldl_addCostCodeFromMarker_entries s
      ((s.findAll "Totals for ").dropLast) l0 h0 q hq2

theorem append_comma_inj {xs ys zs ws : List Char} (hxs : ',' ∉ xs) (hys : ',' ∉ ys)
    (h : xs ++ ',' :: zs = ys ++ ',' :: ws) : xs = ys ∧ zs = ws := by
  induction xs generalizing ys with
  | nil =>
    cases ys with
    | nil => simpa using h
    | cons y ys =>
      simp only [List.nil_append, List.cons_append, List.cons.injEq] at h
      exact absurd (h.1 ▸ List.mem_cons_self y ys) (by simpa [← h.1] using hys)
  | cons x xs ih =>
    cases ys with
    | nil =>
      simp only [List.cons_append, List.nil_append, List.cons.injEq] at h
      exact absurd (h.1 ▸ List.mem_cons_self x xs) (by simpa [h.1] using hxs)
    | cons y ys =>
      simp only [List.cons_append, List.cons.injEq] at h
      have hxs2 : ',' ∉ xs := fun hm => hxs (List.mem_cons_of_mem _ hm)
      have hys2 : ',' ∉ ys := fun hm => hys (List.mem_cons_of_mem _ hm)
      obtain ⟨h1, h2⟩ := ih hxs2 hys2 h.2
      exact ⟨by rw [h.1, h1], h2⟩

theorem joinRow_four_data (a b c d : String) :
    (joinRow [a, b, c, d]).data =
      a.data ++ ',' :: (b.data ++ ',' :: (c.data ++ ',' :: d.data)) := by
  simp [joinRow, String.data_append]

/-! Claim theorems. -/

/-- C6: for every constructed GrandTotal instance that is not
error-flagged (that is, whose constructor did not log an invariant
violation), the invariant totalBalance = balanceBroughtForward + totalIn
- totalOut holds. -/
theorem c6_grandTotal_invariant (totalIn totalOut bbf totalBalance : JSNum) (lrn : Nat)
    (h : (GrandTotal.make totalIn totalOut bbf totalBalance lrn).constructorLogged = false) :
    (GrandTotal.make totalIn totalOut bbf totalBalance lrn).totalBalance =
      (((GrandTotal.make totalIn totalOut bbf totalBalance lrn).balanceBroughtForward.add
        (GrandTotal.make totalIn totalOut bbf totalBalance lrn).totalIn).sub
        (GrandTotal.make totalIn totalOut bbf totalBalance lrn).totalOut) := by
  simp [GrandTotal.constructorLogged] at h
  exact JSNum.eq_of_jsEq h

/-- Witness for C6 at the concrete grand total (10, 4, 2, 8). -/
theorem c6_witness :
    (GrandTotal.make (.num 10) (.num 4) (.num 2) (.num 8) 7).constructorLogged = false ∧
    (GrandTotal.make (.num 10) (.num 4) (.num 2) (.num 8) 7).totalBalance =
      (((GrandTotal.make (.num 10) (.num 4) (.num 2) (.num 8) 7).balanceBroughtForward.add
        (GrandTotal.make (.num 10) (.num 4) (.num 2) (.num 8) 7).totalIn).sub
        (GrandTotal.make (.num 10) (.num 4) (.num 2) (.num 8) 7).totalOut) :=
  ⟨by with_unfolding_all decide,
    c6_grandTotal_invariant (.num 10) (.num 4) (.num 2) (.num 8) 7
      (by with_unfolding_all decide)⟩

/-- C10: a freshly constructed CostCode has an empty entries list and a
changeInBalance of 0; each addEntry appends exactly the given entry and
increases changeInBalance by exactly that money, leaving moneyIn,
moneyOut, balance and lastRowNumber unchanged; and after any sequence of
addEntry calls, changeInBalance equals the sum of the money of the
entries. -/
theorem c10_costCode_accumulator (mIn mOut bal : JSNum) (lrn : Nat) (es : List Entry) :
    (CostCode.make mIn mOut bal lrn).entries = [] ∧
    (CostCode.make mIn mOut bal lrn).changeInBalance = .num 0 ∧
    (∀ (cc : CostCode) (e : Entry),
      (cc.addEntry e).entries = cc.entries ++ [e] ∧
      (cc.addEntry e).changeInBalance = cc.changeInBalance.add e.money ∧
      (cc.addEntry e).moneyIn = cc.moneyIn ∧
      (cc.addEntry e).moneyOut = cc.moneyOut ∧
      (cc.addEntry e).balance = cc.balance ∧
      (cc.addEntry e).lastRowNumber = cc.lastRowNumber) ∧
    (es.foldl CostCode.addEntry (CostCode.make mIn mOut bal lrn)).entries = es ∧
    (es.foldl CostCode.addEntry (CostCode.make mIn mOut bal lrn)).changeInBalance =
      sumMoney es := by
  refine ⟨rfl, rfl, fun cc e => ⟨rfl, rfl, rfl, rfl, rfl, rfl⟩, ?_, ?_⟩
  · rw [foldl_addEntry_entries]; simp [CostCode.make]
  · rw [foldl_addEntry_changeInBalance]; rfl

/-- C5: cost codes are walked in insertion order and a row is attributed
to the first cost code whose lastRowNumber strictly exceeds the row
index; for boundaries r1 < r2 < r3 with the row index r strictly between
r1 and r2, the row always goes to the cost code owning r2, never to the
ones owning r1 or r3. -/
theorem c5_attribution (n1 n2 n3 : String) (m1 o1 b1 m2 o2 b2 m3 o3 b3 : JSNum)
    (r1 r2 r3 r sid : Nat)
    (h12 : n1 ≠ n2) (h13 : n1 ≠ n3) (h23 : n2 ≠ n3)
    (hr1 : r1 < r) (hr2 : r < r2) (hr3 : r2 < r3) :
    (∀ (ccr : List (String × Nat)) (row : Nat),
      findCostCode ccr row = (ccr.find? (fun p => decide (row < p.2))).map Prod.fst) ∧
    ((((Ledger.new sid).addCostCode n1 m1 o1 b1 r1).addCostCode n2 m2 o2 b2 r2).addCostCode
        n3 m3 o3 b3 r3).getCostCodeRows = [(n1, r1), (n2, r2), (n3, r3)] ∧
    findCostCode [(n1, r1), (n2, r2), (n3, r3)] r = some n2 ∧
    some n2 ≠ some n1 ∧ some n2 ≠ some n3 := by
  have hn1 : ¬ r < r1 := by omega
  refine ⟨findCostCode_eq_find, ?_, ?_, ?_, ?_⟩
  · simp [Ledger.new, Ledger.addCostCode, Ledger.upsert, Ledger.getCostCodeRows,
      CostCode.make, h12, h13, h23]
  · simp [findCostCode, hn1, hr2]
  · simpa using fun h => h12 h.symm
  · simpa using h23

/-- Witness for C5 at names A, B, C with boundaries 5 < 10 < 15 and the
row at index 7. -/
theorem c5_witness :
    (∀ (ccr : List (String × Nat)) (row : Nat),
      findCostCode ccr row = (ccr.find? (fun p => decide (row < p.2))).map Prod.fst) ∧
    ((((Ledger.new 0).addCostCode "A" (.num 1) (.num 0) (.num 1) 5).addCostCode
        "B" (.num 2) (.num 0) (.num 2) 10).addCostCode
        "C" (.num 3) (.num 0) (.num 3) 15).getCostCodeRows =
      [("A", 5), ("B", 10), ("C", 15)] ∧
    findCostCode [("A", 5), ("B", 10), ("C", 15)] 7 = some "B" ∧
    some "B" ≠ some "A" ∧ some "B" ≠ some "C" :=
  c5_attribution "A" "B" "C" (.num 1) (.num 0) (.num 1) (.num 2) (.num 0) (.num 2)
    (.num 3) (.num 0) (.num 3) 5 10 15 7 0
    (by decide) (by decide) (by decide) (by decide) (by decide) (by decide)

/-- C1 counterexample: constructing an entry with both moneyIn = 50 and
moneyOut = 50 does not fail; addEntry succeeds and silently stores the
moneyIn value 50 as the money of the entry, because calculateMoney only
tests whether moneyIn is 0. -/
theorem c1_counterexample :
    Ledger.addEntry ((Ledger.new 0).addCostCode "X" (.num 50) (.num 50) (.num 0) 10)
        "X" "01/01/2023" "shared cost" (.num 50) (.num 50) =
      .ok ⟨0, [("X", ⟨.num 50, .num 50, .num 0, 10,
        [⟨"01/01/2023", "shared cost", .num 50⟩], .num 50⟩)], none, none, none⟩ := by
  with_unfolding_all rfl

/-- C1 amended: whenever moneyIn is non-zero (in particular when both
moneyIn and moneyOut are non-zero), calculateMoney returns moneyIn, and
addEntry on an existing cost code succeeds, storing moneyIn as the money
of the new entry; no error is raised. -/
theorem c1_amended (l : Ledger) (name date desc : String) (q : ℚ) (mOut : JSNum)
    (cc : CostCode) (hq : q ≠ 0) (hcc : l.costCodes.lookup name = some cc) :
    Ledger.calculateMoney (.num q) mOut = .num q ∧
    l.addEntry name date desc (.num q) mOut =
      .ok { l with costCodes := Ledger.updateCostCode l.costCodes name ⟨date, desc, .num q⟩ } ∧
    (Ledger.updateCostCode l.costCodes name ⟨date, desc, .num q⟩).lookup name =
      some (cc.addEntry ⟨date, desc, .num q⟩) := by
  have hcalc : Ledger.calculateMoney (.num q) mOut = .num q := by
    simp [Ledger.calculateMoney, JSNum.jsEq, hq]
  refine ⟨hcalc, ?_, lookup_updateCostCode _ hcc⟩
  simp [Ledger.addEntry, hcalc, hcc]

/-- Witness for C1 amended: both moneyIn and moneyOut are 50 on cost code
X, and the entry is stored with money 50. -/
theorem c1_amended_witness :
    Ledger.calculateMoney (.num 50) (.num 50) = .num 50 ∧
    Ledger.addEntry ((Ledger.new 0).addCostCode "X" (.num 50) (.num 50) (.num 0) 10)
        "X" "01/01/2023" "shared cost" (.num 50) (.num 50) =
      .ok { (Ledger.new 0).addCostCode "X" (.num 50) (.num 50) (.num 0) 10 with
        costCodes := Ledger.updateCostCode
          ((Ledger.new 0).addCostCode "X" (.num 50) (.num 50) (.num 0) 10).costCodes
          "X" ⟨"01/01/2023", "shared cost", .num 50⟩ } ∧
    (Ledger.updateCostCode
        ((Ledger.new 0).addCostCode "X" (.num 50) (.num 50) (.num 0) 10).costCodes
        "X" ⟨"01/01/2023", "shared cost", .num 50⟩).lookup "X" =
      some ((CostCode.make (.num 50) (.num 50) (.num 0) 10).addEntry
        ⟨"01/01/2023", "shared cost", .num 50⟩) :=
  c1_amended ((Ledger.new 0).addCostCode "X" (.num 50) (.num 50) (.num 0) 10)
    "X" "01/01/2023" "shared cost" 50 (.num 50)
    (CostCode.make (.num 50) (.num 50) (.num 0) 10)
    (by with_unfolding_all decide) (by with_unfolding_all rfl)

/-- C3 counterexample: the differ compares rows by their comma-joined
string, not cell-wise.  The new row (a,b | c | d | e) is cell-wise
different from the only old row (a | b,c | d | e), so the claim says it
must be flagged as new, yet compareWithOld reports it as present because
the two joins are the same string. -/
theorem c3_counterexample :
    compareWithOld 1 [["a", "b,c", "d", "e"]] ⟨0, [["a,b", "c", "d", "e"]]⟩ = false ∧
    SheetData.row4 ⟨0, [["a,b", "c", "d", "e"]]⟩ 1 = ["a,b", "c", "d", "e"] ∧
    (["a,b", "c", "d", "e"] : List String) ≠ ["a", "b,c", "d", "e"] := by
  refine ⟨by decide, rfl, by decide⟩

/-- C3 amended: a row after the header is flagged as new if and only if
no row of the old sheet values has the same comma-joined string of its
four cells (an unordered membership test against the full old row set);
when no compared cell contains a comma this coincides with cell-wise
equality across the four columns. -/
theorem c3_amended :
    (∀ (row : Nat) (ov : List (List String)) (ns : SheetData),
      compareWithOld row ov ns = true ↔
        ∀ old ∈ ov, joinRow (ns.row4 row) ≠ joinRow old) ∧
    (∀ a b c d e f g k : String,
      ',' ∉ a.data → ',' ∉ b.data → ',' ∉ c.data → ',' ∉ d.data →
      ',' ∉ e.data → ',' ∉ f.data → ',' ∉ g.data → ',' ∉ k.data →
      (joinRow [a, b, c, d] = joinRow [e, f, g, k] ↔
        (a = e ∧ b = f ∧ c = g ∧ d = k))) := by
  constructor
  · intro row ov ns
    simp [compareWithOld, List.any_eq_true]
  · intro a b c d e f g k ha hb hc hd he hf hg hk
    constructor
    · intro h
      have hdata := congrArg String.data h
      rw [joinRow_four_data, joinRow_four_data] at hdata
      obtain ⟨h1, h2⟩ := append_comma_inj ha he hdata
      obtain ⟨h3, h4⟩ := append_comma_inj hb hf h2
      obtain ⟨h5, h6⟩ := append_comma_inj hc hg h4
      exact ⟨String.ext h1, String.ext h3, String.ext h5, String.ext h6⟩
    · rintro ⟨rfl, rfl, rfl, rfl⟩
      rfl

/-- Witness for C3 amended: the membership formulation at a concrete row
and old set, and the cell-wise equivalence at concrete comma-free
cells. -/
theorem c3_amended_witness :
    (compareWithOld 2 [["Date", "", "", ""]] ⟨0, [["Date", "", "", ""], ["01/01/2023", "Rent", "", "50"]]⟩ = true ↔
      ∀ old ∈ [["Date", "", "", ""]],
        joinRow (SheetData.row4 ⟨0, [["Date", "", "", ""], ["01/01/2023", "Rent", "", "50"]]⟩ 2) ≠ joinRow old) ∧
    (joinRow ["01/01/2023", "Rent", "", "50"] =
        joinRow ["01/01/2023", "Rent", "", "50"] ↔
      ("01/01/2023" = "01/01/2023" ∧ "Rent" = "Rent" ∧ "" = "" ∧ "50" = "50")) :=
  ⟨c3_amended.1 2 [["Date", "", "", ""]] ⟨0, [["Date", "", "", ""], ["01/01/2023", "Rent", "", "50"]]⟩,
    c3_amended.2 "01/01/2023" "Rent" "" "50" "01/01/2023" "Rent" "" "50"
      (by decide) (by decide) (by decide) (by decide)
      (by decide) (by decide) (by decide) (by decide)⟩

/-- C4 counterexample: the first column x12/34/5678 is not of the whole
DD/MM/YYYY shape, yet the differ records the flagged new row as an Entry,
because the isADate regular expression is unanchored and only requires a
date-shaped substring. -/
theorem c4_counterexample :
    specExactDateShape "x12/34/5678" = false ∧
    compareLedgers ⟨7, [["Date", "", "", ""], ["x12/34/5678", "desc", "120", ""]]⟩
        ⟨8, [["Date", "", "", ""]]⟩
        (some ((Ledger.new 7).addCostCode "CC" (.num 0) (.num 0) (.num 0) 5)) =
      .ok ⟨true,
        some ⟨7, [("CC", ⟨.num 0, .num 0, .num 0, 5,
          [⟨"x12/34/5678", "desc", .num 120⟩], .num 120⟩)], none, none, none⟩,
        ["Row 2 is a new row!", "Finished comparing sheets!"], 1⟩ := by
  exact ⟨rfl, by with_unfolding_all rfl⟩

/-- C4 amended: a flagged new row is recorded as an Entry only if its
first column passes isADate, that is only if it contains a
DD/MM/YYYY-shaped substring (the whole value need not have that shape);
when isADate fails the row step leaves the ledger unchanged, so in
particular a new row whose first column is Total Balance - X is never
added as an Entry. -/
theorem c4_amended :
    (∀ (ns : SheetData) (ov : List (List String)) (ccr : List (String × Nat))
        (st : DiffState) (r : Nat),
      st.passedHeader = true → isADate (ns.getCell r 1) = false →
      Except.map (fun st2 => st2.ledger) (diffStep ns ov ccr st r) = .ok st.ledger) ∧
    isADate "Total Balance - X" = false := by
  refine ⟨?_, by decide⟩
  intro ns ov ccr st r hp hdate
  obtain ⟨ph, led, lg, wk⟩ := st
  simp only at hp
  subst hp
  by_cases hnew : compareWithOld r ov ns = true
  · cases led with
    | none => simp [diffStep, hnew, hdate, Except.map]
    | some l => simp [diffStep, hnew, hdate, Except.map]
  · have hnew2 : compareWithOld r ov ns = false := by
      cases h2 : compareWithOld r ov ns
      · rfl
      · exact absurd h2 hnew
    simp [diffStep, hnew2, Except.map]

/-- Witness for C4 amended: a new row whose first column is the string
Total Balance - X is processed without touching the ledger. -/
theorem c4_amended_witness :
    Except.map (fun st2 => st2.ledger)
      (diffStep ⟨7, [["Date", "", "", ""], ["Total Balance - X", "", "", ""]]⟩
        [["Date", "", "", ""]] [("CC", 5)]
        ⟨true, some ((Ledger.new 7).addCostCode "CC" (.num 0) (.num 0) (.num 0) 5), [], 0⟩ 2) =
      .ok (⟨true, some ((Ledger.new 7).addCostCode "CC" (.num 0) (.num 0) (.num 0) 5), [], 0⟩ :
        DiffState).ledger ∧
    isADate "Total Balance - X" = false :=
  ⟨c4_amended.1 ⟨7, [["Date", "", "", ""], ["Total Balance - X", "", "", ""]]⟩
      [["Date", "", "", ""]] [("CC", 5)]
      ⟨true, some ((Ledger.new 7).addCostCode "CC" (.num 0) (.num 0) (.num 0) 5), [], 0⟩ 2
      rfl (by decide),
    c4_amended.2⟩

/-- C9: a new date-shaped row whose index is at least every cost code
lastRowNumber is a recoverable skip: the row step succeeds (no error is
raised), logs the row, adds no Entry (the ledger is unchanged), and the
loop simply continues with the remaining rows. -/
theorem c9_ambiguous_attribution_skip (ns : SheetData) (ov : List (List String))
    (ccr : List (String × Nat)) (st : DiffState) (r : Nat) (rest : List Nat)
    (hp : st.passedHeader = true)
    (hnew : compareWithOld r ov ns = true)
    (hdate : isADate (ns.getCell r 1) = true)
    (hbound : ∀ p ∈ ccr, p.2 ≤ r) :
    diffStep ns ov ccr st r =
      .ok { st with work := st.work + 1, logs := st.logs ++ [newRowLog r] } ∧
    diffLoop ns ov ccr st (r :: rest) =
      diffLoop ns ov ccr { st with work := st.work + 1, logs := st.logs ++ [newRowLog r] }
        rest := by
  have hfind := findCostCode_none hbound
  obtain ⟨ph, led, lg, wk⟩ := st
  simp only at hp
  subst hp
  have hstep : diffStep ns ov ccr ⟨true, led, lg, wk⟩ r =
      .ok ⟨true, led, lg ++ [newRowLog r], wk + 1⟩ := by
    cases led with
    | none => simp [diffStep, hnew, hdate]
    | some l => simp [diffStep, hnew, hdate, hfind]
  exact ⟨hstep, by simp [diffLoop, hstep]⟩

/-- Witness for C9: a new row at index 2 with a date-shaped first column
and a single cost code whose lastRowNumber is 2 is skipped without an
entry and the loop continues. -/
theorem c9_witness :
    diffStep ⟨1, [["Date", "", "", ""], ["01/02/2003", "x", "5", ""]]⟩
        [["Date", "", "", ""]] [("A", 2)] ⟨true, some (Ledger.new 1), [], 0⟩ 2 =
      .ok { (⟨true, some (Ledger.new 1), [], 0⟩ : DiffState) with
        work := 0 + 1, logs := ([] : List String) ++ [newRowLog 2] } ∧
    diffLoop ⟨1, [["Date", "", "", ""], ["01/02/2003", "x", "5", ""]]⟩
        [["Date", "", "", ""]] [("A", 2)] ⟨true, some (Ledger.new 1), [], 0⟩ [2] =
      diffLoop ⟨1, [["Date", "", "", ""], ["01/02/2003", "x", "5", ""]]⟩
        [["Date", "", "", ""]] [("A", 2)]
        { (⟨true, some (Ledger.new 1), [], 0⟩ : DiffState) with
          work := 0 + 1, logs := ([] : List String) ++ [newRowLog 2] } [] :=
  c9_ambiguous_attribution_skip ⟨1, [["Date", "", "", ""], ["01/02/2003", "x", "5", ""]]⟩
    [["Date", "", "", ""]] [("A", 2)] ⟨true, some (Ledger.new 1), [], 0⟩ 2 []
    rfl (by decide) (by decide) (by decide)

/-- C7 counterexample: a sheet with three marker matches, of which the
first two strip to the same cost code name A.  The claim requires exactly
one CostCode per match except the last (two here), but the string-keyed
assignment silently overwrites the earlier A, leaving a single CostCode
(whose lastRowNumber is the later row 4). -/
theorem c7_counterexample :
    ((⟨0, [[], ["Totals for A"], [], ["Totals for A"], [],
        ["Totals for G"]]⟩ : SheetData).findAll "Totals for ").length = 3 ∧
    Except.map (fun lr => lr.costCodes.length)
      (getCostCodeTotals ⟨0, [[], ["Totals for A"], [], ["Totals for A"], [],
        ["Totals for G"]]⟩ (Ledger.new 0)) = .ok 1 ∧
    Except.map (fun lr => lr.costCodes.map Prod.fst)
      (getCostCodeTotals ⟨0, [[], ["Totals for A"], [], ["Totals for A"], [],
        ["Totals for G"]]⟩ (Ledger.new 0)) = .ok ["A"] := by
  refine ⟨by decide, ?_, ?_⟩ <;> with_unfolding_all rfl

/-- C7 amended: provided the stripped names of the non-final marker
matches are pairwise distinct, the extractor creates exactly one CostCode
per marker match except the last, in match order, named by the cell text
with the first occurrence of the marker text removed (the prefix stripped
whenever the cell starts with the marker), with moneyIn one column right
of the match, moneyOut two columns right, balance one row below and two
columns right, and lastRowNumber the row of the match; the final match
yields the GrandTotal with the same +1/+2 column offsets for the totals,
balance brought forward two rows below and two columns right, and total
balance three rows below and two columns right.  Without the
distinctness hypothesis later duplicates silently overwrite earlier cost
codes. -/
theorem c7_extractor (s : SheetData) (l0 : Ledger) (fs : List (Nat × Nat))
    (lastP : Nat × Nat)
    (hfind : s.findAll "Totals for " = fs ++ [lastP])
    (hnd : (fs.map (ccName s)).Nodup)
    (h0 : l0.costCodes = []) :
    Except.map (fun lr => lr.costCodes) (getCostCodeTotals s l0) =
      .ok (fs.map (fun p => (replaceFirst (s.getCell p.1 p.2) "Totals for ",
        CostCode.make (jsNumber (s.getCell p.1 (p.2 + 1)))
          (jsNumber (s.getCell p.1 (p.2 + 2)))
          (jsNumber (s.getCell (p.1 + 1) (p.2 + 2)))
          p.1))) ∧
    Except.map (fun lr => lr.costCodes.length) (getCostCodeTotals s l0) =
      .ok fs.length ∧
    Except.map (fun lr => lr.grandTotal) (getCostCodeTotals s l0) =
      .ok (some (GrandTotal.make
        (jsNumber (s.getCell lastP.1 (lastP.2 + 1)))
        (jsNumber (s.getCell lastP.1 (lastP.2 + 2)))
        (jsNumber (s.getCell (lastP.1 + 2) (lastP.2 + 2)))
        (jsNumber (s.getCell (lastP.1 + 3) (lastP.2 + 2)))
        lastP.1)) := by
  have hlast : (s.findAll "Totals for ").getLast? = some lastP := by
    rw [hfind]; exact List.getLast?_concat fs
  have hdrop : (s.findAll "Totals for ").dropLast = fs := by
    rw [hfind]; exact List.dropLast_concat
  have hfold : (fs.foldl (addCostCodeFromMarker s) l0).costCodes =
      l0.costCodes ++ fs.map (fun p => (ccName s p, costCodeAtMarker s p)) :=
    foldl_addCostCodeFromMarker s fs l0 hnd
      (fun p _ q hq => by rw [h0] at hq; exact absurd hq (List.not_mem_nil q))
  have hok : getCostCodeTotals s l0 =
      .ok (((fs.foldl (addCostCodeFromMarker s) l0).setGrandTotal
        (jsNumber (s.getCell lastP.1 (lastP.2 + 1)))
        (jsNumber (s.getCell lastP.1 (lastP.2 + 2)))
        (jsNumber (s.getCell (lastP.1 + 2) (lastP.2 + 2)))
        (jsNumber (s.getCell (lastP.1 + 3) (lastP.2 + 2)))
        lastP.1).setSocietyName (s.getCell 2 1)) := by
    simp only [getCostCodeTotals, hlast, hdrop]
  refine ⟨?_, ?_, ?_⟩
  · rw [hok]
    show Except.ok ((fs.foldl (addCostCodeFromMarker s) l0).costCodes) = _
    rw [hfold, h0, List.nil_append]
    rfl
  · rw [hok]
    show Except.ok ((fs.foldl (addCostCodeFromMarker s) l0).costCodes.length) = _
    rw [hfold, h0, List.nil_append, List.length_map]
  · rw [hok]
    rfl

/-- Concrete formatted ledger sheet used by several witnesses: one cost
code marker at row 4 (totals 10, 4, balance 6) and the grand total marker
at row 7 (totals 10, 4, balance brought forward 2, total balance 8). -/
def sampleSheet : SheetData :=
  ⟨3, [["Income/Expense Statement"], ["MySoc"], ["ts 2023"],
    ["Totals for A", "10", "4"], ["", "", "6"], [],
    ["Grand Totals for year", "10", "4"], [], ["", "", "2"], ["", "", "8"]]⟩

/-- Witness for C7 at the concrete two-marker sheet: one cost code A at
row 4 and the grand total at row 7. -/
theorem c7_witness :
    Except.map (fun lr => lr.costCodes) (getCostCodeTotals sampleSheet (Ledger.new 3)) =
      .ok ([((4 : Nat), (1 : Nat))].map
        (fun p => (replaceFirst (sampleSheet.getCell p.1 p.2) "Totals for ",
          CostCode.make (jsNumber (sampleSheet.getCell p.1 (p.2 + 1)))
            (jsNumber (sampleSheet.getCell p.1 (p.2 + 2)))
            (jsNumber (sampleSheet.getCell (p.1 + 1) (p.2 + 2)))
            p.1))) ∧
    Except.map (fun lr => lr.costCodes.length)
      (getCostCodeTotals sampleSheet (Ledger.new 3)) = .ok [((4 : Nat), (1 : Nat))].length ∧
    Except.map (fun lr => lr.grandTotal) (getCostCodeTotals sampleSheet (Ledger.new 3)) =
      .ok (some (GrandTotal.make
        (jsNumber (sampleSheet.getCell 7 (1 + 1)))
        (jsNumber (sampleSheet.getCell 7 (1 + 2)))
        (jsNumber (sampleSheet.getCell (7 + 2) (1 + 2)))
        (jsNumber (sampleSheet.getCell (7 + 3) (1 + 2)))
        7)) :=
  c7_extractor sampleSheet (Ledger.new 3) [(4, 1)] (7, 1)
    (by decide) (by decide) rfl

theorem checkForNewTotals_short_circuit (ns os : SheetData) (l lo : Ledger)
    (hA1 : ns.getCell 1 1 = "Income/Expense Statement")
    (hNew : getCostCodeTotals ns (Ledger.new ns.id) = .ok l)
    (hOld : getCostCodeTotals os (Ledger.new os.id) = .ok lo)
    (hCmp : Ledger.compareLedgers (l.setOldLedgerTimestamp (os.getCell 3 1)) lo = .ok true) :
    checkForNewTotals ns os =
      .ok (.noChanges (l.setOldLedgerTimestamp (os.getCell 3 1)), 0) := by
  simp [checkForNewTotals, formatNeatlyWithSheet, hA1, hNew, hOld, hCmp]

/-- C2: the static compareLedgers returns true exactly when the two set
grand totals agree on totalIn, totalOut and balanceBroughtForward —
totalBalance and lastRowNumber are never compared; and whenever it
returns true, checkForNewTotals returns the no-changes result (the
string False in the source) with zero row-level comparisons performed. -/
theorem c2_compare_and_short_circuit :
    (∀ (a b : Ledger) (ga gb : GrandTotal) (qi qo qb qi2 qo2 qb2 : ℚ),
      a.grandTotal = some ga → b.grandTotal = some gb →
      ga.totalIn = .num qi → ga.totalOut = .num qo →
      ga.balanceBroughtForward = .num qb →
      gb.totalIn = .num qi2 → gb.totalOut = .num qo2 →
      gb.balanceBroughtForward = .num qb2 →
      (Ledger.compareLedgers a b = .ok true ↔ (qi = qi2 ∧ qo = qo2 ∧ qb = qb2))) ∧
    (∀ (ns os : SheetData) (l lo : Ledger),
      ns.getCell 1 1 = "Income/Expense Statement" →
      getCostCodeTotals ns (Ledger.new ns.id) = .ok l →
      getCostCodeTotals os (Ledger.new os.id) = .ok lo →
      Ledger.compareLedgers (l.setOldLedgerTimestamp (os.getCell 3 1)) lo = .ok true →
      checkForNewTotals ns os =
        .ok (.noChanges (l.setOldLedgerTimestamp (os.getCell 3 1)), 0)) := by
  constructor
  · intro a b ga gb qi qo qb qi2 qo2 qb2 ha hb h1 h2 h3 h4 h5 h6
    simp [Ledger.compareLedgers, ha, hb, h1, h2, h3, h4, h5, h6, JSNum.jsEq,
      and_assoc]
  · intro ns os l lo hA1 hNew hOld hCmp
    exact checkForNewTotals_short_circuit ns os l lo hA1 hNew hOld hCmp

/-- The ledger extracted from the sample sheet. -/
def sampleLedger : Ledger :=
  ⟨3, [("A", ⟨.num 10, .num 4, .num 6, 4, [], .num 0⟩)],
    some ⟨.num 10, .num 4, .num 2, .num 8, 7⟩, some "MySoc", none⟩

/-- Witness for C2: two grand totals that differ only in totalBalance
(99 against 4) and lastRowNumber (7 against 9) still compare as true, and
the sample sheet against itself short-circuits with zero row work. -/
theorem c2_witness :
    (Ledger.compareLedgers ((Ledger.new 0).setGrandTotal (.num 1) (.num 2) (.num 3) (.num 99) 7)
        ((Ledger.new 1).setGrandTotal (.num 1) (.num 2) (.num 3) (.num 4) 9) = .ok true ↔
      ((1 : ℚ) = 1 ∧ (2 : ℚ) = 2 ∧ (3 : ℚ) = 3)) ∧
    checkForNewTotals sampleSheet sampleSheet =
      .ok (.noChanges (sampleLedger.setOldLedgerTimestamp (sampleSheet.getCell 3 1)), 0) :=
  ⟨c2_compare_and_short_circuit.1
      ((Ledger.new 0).setGrandTotal (.num 1) (.num 2) (.num 3) (.num 99) 7)
      ((Ledger.new 1).setGrandTotal (.num 1) (.num 2) (.num 3) (.num 4) 9)
      (GrandTotal.make (.num 1) (.num 2) (.num 3) (.num 99) 7)
      (GrandTotal.make (.num 1) (.num 2) (.num 3) (.num 4) 9)
      1 2 3 1 2 3 rfl rfl rfl rfl rfl rfl rfl rfl,
    c2_compare_and_short_circuit.2 sampleSheet sampleSheet sampleLedger sampleLedger
      rfl (by with_unfolding_all rfl) (by with_unfolding_all rfl)
      (by with_unfolding_all rfl)⟩

/-- C8: comparing a formatted ledger sheet against an identical copy of
itself always takes the no-changes short circuit — zero row-level
comparisons — and every cost code of the ledger built during the run has
an empty entries list.  The hypotheses ask that extraction succeeds and
that the extracted grand total fields are numeric (a grand total whose
cells do not parse as numbers is NaN-valued, and NaN compares unequal
even to itself in JavaScript). -/
theorem c8_self_compare (s : SheetData) (l : Ledger) (g : GrandTotal) (qi qo qb : ℚ)
    (hA1 : s.getCell 1 1 = "Income/Expense Statement")
    (hx : getCostCodeTotals s (Ledger.new s.id) = .ok l)
    (hg : l.grandTotal = some g)
    (hti : g.totalIn = .num qi) (hto : g.totalOut = .num qo)
    (hbb : g.balanceBroughtForward = .num qb) :
    checkForNewTotals s s = .ok (.noChanges (l.setOldLedgerTimestamp (s.getCell 3 1)), 0) ∧
    ∀ p ∈ (l.setOldLedgerTimestamp (s.getCell 3 1)).costCodes, p.2.entries = [] := by
  have hg2 : (l.setOldLedgerTimestamp (s.getCell 3 1)).grandTotal = some g := hg
  have hcmp : Ledger.compareLedgers (l.setOldLedgerTimestamp (s.getCell 3 1)) l = .ok true := by
    simp [Ledger.compareLedgers, hg2, hg, hti, hto, hbb, JSNum.jsEq]
  refine ⟨checkForNewTotals_short_circuit s s l l hA1 hx hx hcmp, ?_⟩
  intro p hp
  exact getCostCodeTotals_entries_empty
    (fun q hq => absurd hq (List.not_mem_nil q)) hx p hp

/-- Witness for C8: the sample sheet against itself. -/
theorem c8_witness :
    checkForNewTotals sampleSheet sampleSheet =
      .ok (.noChanges (sampleLedger.setOldLedgerTimestamp (sampleSheet.getCell 3 1)), 0) ∧
    ∀ p ∈ (sampleLedger.setOldLedgerTimestamp (sampleSheet.getCell 3 1)).costCodes,
      p.2.entries = [] :=
  c8_self_compare sampleSheet sampleLedger ⟨.num 10, .num 4, .num 2, .num 8, 7⟩ 10 4 2
    rfl (by with_unfolding_all rfl) rfl rfl rfl rfl

end ContemporaryChoir
